import Mathlib

/-!
# Verification of the ush micro-shell pipeline execution engine

A shallow embedding of the pipeline execution core of `src/main.c` (the `ush`
shell): the rotating two-slot channel wiring of `process_pipe`, the process
launcher `process_cmd`, the redirection applier `perform_io_redirect`, the
builtin lookup `is_builtin`, and the builtin bodies `exec_echo` and
`exec_nice` together with the numeric test `is_number`.

File descriptors are modelled by an inductive type: the shell's real standard
input (fd 0), real standard output (fd 1), the invalid descriptor (-1), and
the two endpoints of the k-th pipe allocated during a pipeline's
construction.  `pipe()` is modelled as returning the fresh pair with the next
index; the set of pipe endpoints currently open in the shell is tracked
explicitly.
-/

/-- A file descriptor as seen by the shell while wiring a pipeline.
`stdin`/`stdout` are the shell's real fds 0 and 1, `invalid` is -1, and
`pr k` / `pw k` are the read and write endpoints of the k-th pipe created by
`pipe()` during construction of the current pipeline. -/
inductive FD where
  | stdin : FD
  | stdout : FD
  | invalid : FD
  | pr : Nat → FD
  | pw : Nat → FD
deriving DecidableEq, Repr

/-- The write endpoint paired with a given read endpoint (identity on
non-read-endpoint descriptors). -/
def pairedWrite : FD → FD
  | FD.pr k => FD.pw k
  | fd => fd

/-- Shell-side state during `process_pipe`'s construction loop: the parity
bit `pipenum`, the two slots of `mypipes[2][2]` (each slot is a
(read, write) pair of descriptors), the list of pipe endpoints currently
open in the shell, and the index of the next pipe `pipe()` would create. -/
structure ShellState where
  pipenum : Bool
  slot0 : FD × FD
  slot1 : FD × FD
  openEnds : List FD
  nextPipe : Nat
deriving DecidableEq, Repr

/-- `mypipes[b]` : select a slot by the parity bit. -/
def getSlot (s : ShellState) (b : Bool) : FD × FD := if b then s.slot1 else s.slot0

/-- Store a (read, write) pair into slot `b`. -/
def setSlot (s : ShellState) (b : Bool) (v : FD × FD) : ShellState :=
  if b then { s with slot1 := v } else { s with slot0 := v }

/-- `close(fd)` : the descriptor is no longer open in the shell.  Closing a
descriptor that is not open (such as -1) is a failing no-op, as in POSIX. -/
def closeFD (s : ShellState) (fd : FD) : ShellState :=
  { s with openEnds := s.openEnds.filter (fun x => x != fd) }

/-- `pipenum = !pipenum` (main.c line 250). -/
def flipStep (s : ShellState) : ShellState := { s with pipenum := !s.pipenum }

/-- `if(mypipes[pipenum][0] != 0) close(mypipes[pipenum][0])`
(main.c lines 253-254). -/
def closeStale1 (s : ShellState) : ShellState :=
  if (getSlot s s.pipenum).1 ≠ FD.stdin then closeFD s (getSlot s s.pipenum).1 else s

/-- `if(mypipes[pipenum][1] != 1) close(mypipes[pipenum][1])`
(main.c lines 255-256). -/
def closeStale2 (s : ShellState) : ShellState :=
  if (getSlot s s.pipenum).2 ≠ FD.stdout then closeFD s (getSlot s s.pipenum).2 else s

/-- Close whatever is stale in the now-current slot (main.c lines 252-256). -/
def closeStale (s : ShellState) : ShellState := closeStale2 (closeStale1 s)

/-- Lines 260-265: for a command with a successor, `pipe(mypipes[pipenum])`
allocates a fresh pair into the current slot; for the last command the slot
is instead bound to `(-1, stdout)`. -/
def allocStep (s : ShellState) (isLast : Bool) : ShellState :=
  if isLast then
    setSlot s s.pipenum (FD.invalid, FD.stdout)
  else
    let k := s.nextPipe
    let s1 := setSlot s s.pipenum (FD.pr k, FD.pw k)
    { s1 with openEnds := FD.pr k :: FD.pw k :: s1.openEnds, nextPipe := k + 1 }

/-- One iteration of the `for(c = p->head; ...)` loop of `process_pipe`
(lines 250-265), up to and including the point where command `c` is spawned. -/
def stepCmd (s : ShellState) (isLast : Bool) : ShellState :=
  allocStep (closeStale (flipStep s)) isLast

/-- State at the top of `process_pipe` (lines 236-244): parity 0, all four
entries -1, then `mypipes[0][0] = 0`. -/
def initShellState : ShellState :=
  { pipenum := false, slot0 := (FD.stdin, FD.invalid), slot1 := (FD.invalid, FD.invalid),
    openEnds := [], nextPipe := 0 }

/-- State after the first `i` iterations of the construction loop of a
pipeline with `n` commands (iteration `i` is the last one exactly when
`i + 1 = n`). -/
def runSteps (n : Nat) : Nat → ShellState
  | 0 => initShellState
  | i + 1 => stepCmd (runSteps n i) (decide (i + 1 = n))

/-- First close of the post-loop cleanup:
`if(mypipes[0][0] != 0) close(mypipes[0][0])` (lines 276-277). -/
def finalClose1 (s : ShellState) : ShellState :=
  if s.slot0.1 ≠ FD.stdin then closeFD s s.slot0.1 else s

/-- `if(mypipes[0][1] != 1) close(mypipes[0][1])` (lines 278-279). -/
def finalClose2 (s : ShellState) : ShellState :=
  if s.slot0.2 ≠ FD.stdout then closeFD s s.slot0.2 else s

/-- `if(mypipes[1][0] != 0) close(mypipes[1][0])` (lines 280-281). -/
def finalClose3 (s : ShellState) : ShellState :=
  if s.slot1.1 ≠ FD.stdin then closeFD s s.slot1.1 else s

/-- `if(mypipes[1][1] != 1) close(mypipes[1][1])` (lines 282-283). -/
def finalClose4 (s : ShellState) : ShellState :=
  if s.slot1.2 ≠ FD.stdout then closeFD s s.slot1.2 else s

/-- The whole post-loop cleanup block of `process_pipe` (lines 276-283). -/
def finalClose (s : ShellState) : ShellState :=
  finalClose4 (finalClose3 (finalClose2 (finalClose1 s)))

/-- `dup2(mypipes[!pipenum][0], 0)` in `perform_pipe_redirect` (line 465):
the descriptor a freshly spawned command receives as its standard input. -/
def childStdin (s : ShellState) : FD := (getSlot s (!s.pipenum)).1

/-- `dup2(mypipes[pipenum][1], 1)` in `perform_pipe_redirect` (line 468):
the descriptor a freshly spawned command receives as its standard output. -/
def childStdout (s : ShellState) : FD := (getSlot s s.pipenum).2

/-- The shell state at the moment command `j` (0-based) of an `n`-command
pipeline is spawned: the loop has performed `j + 1` iterations. -/
def spawnState (n j : Nat) : ShellState := runSteps n (j + 1)

/-- The input source wired to command `j` of an `n`-command pipeline. -/
def inputSource (n j : Nat) : FD := childStdin (spawnState n j)

/-- The output sink wired to command `j` of an `n`-command pipeline. -/
def outputSink (n j : Nat) : FD := childStdout (spawnState n j)

/-- The pipe index of a pipe endpoint, `none` for the standard descriptors. -/
def pipeIdx : FD → Option Nat
  | FD.pr k => some k
  | FD.pw k => some k
  | _ => none

/-- The number of distinct pipes with at least one endpoint still open in
the shell. -/
def openPairCount (s : ShellState) : Nat :=
  (s.openEnds.filterMap pipeIdx).toFinset.card

/-- The shell states passed through during one iteration of the
construction loop: after the parity flip, after each stale close, and after
the allocation / stdout binding. -/
def iterPoints (s : ShellState) (isLast : Bool) : List ShellState :=
  [flipStep s, closeStale1 (flipStep s), closeStale (flipStep s), stepCmd s isLast]

/-- All shell states passed through during the first `i` iterations. -/
def tracePoints (n : Nat) : Nat → List ShellState
  | 0 => [initShellState]
  | i + 1 => tracePoints n i ++ iterPoints (runSteps n i) (decide (i + 1 = n))

/-- Every shell state passed through while constructing an `n`-command
pipeline: the loop iterations plus the four closes of the cleanup block. -/
def allPoints (n : Nat) : List ShellState :=
  tracePoints n n ++
    [finalClose1 (runSteps n n),
     finalClose2 (finalClose1 (runSteps n n)),
     finalClose3 (finalClose2 (finalClose1 (runSteps n n))),
     finalClose (runSteps n n)]

/-! ## Closed forms for the loop states -/

/-- The (read, write) pair of the k-th pipe. -/
def pairSlot (k : Nat) : FD × FD := (FD.pr k, FD.pw k)

/-- Closed form of the shell state after `i` loop iterations when none of
them was the final one (valid for `1 ≤ i < n`). -/
def stateMid (i : Nat) : ShellState :=
  if i ≤ 1 then
    { pipenum := true, slot0 := (FD.stdin, FD.invalid), slot1 := pairSlot 0,
      openEnds := [FD.pr 0, FD.pw 0], nextPipe := 1 }
  else
    { pipenum := decide (i % 2 = 1),
      slot0 := if i % 2 = 1 then pairSlot (i - 2) else pairSlot (i - 1),
      slot1 := if i % 2 = 1 then pairSlot (i - 1) else pairSlot (i - 2),
      openEnds := [FD.pr (i - 1), FD.pw (i - 1), FD.pr (i - 2), FD.pw (i - 2)],
      nextPipe := i }

/-- Closed form of the shell state after all `n` iterations (`n ≥ 1`). -/
def stateEnd (n : Nat) : ShellState :=
  if n ≤ 1 then
    { pipenum := true, slot0 := (FD.stdin, FD.invalid), slot1 := (FD.invalid, FD.stdout),
      openEnds := [], nextPipe := 0 }
  else
    { pipenum := decide (n % 2 = 1),
      slot0 := if n % 2 = 1 then pairSlot (n - 2) else (FD.invalid, FD.stdout),
      slot1 := if n % 2 = 1 then (FD.invalid, FD.stdout) else pairSlot (n - 2),
      openEnds := [FD.pr (n - 2), FD.pw (n - 2)],
      nextPipe := n - 1 }

/-! ## Step lemmas relating the loop body to the closed forms -/

theorem stepCmd_init_false : stepCmd initShellState false = stateMid 1 := by decide

theorem stepCmd_init_true : stepCmd initShellState true = stateEnd 1 := by decide

theorem stepCmd_stateMid_false (i : Nat) (hi : 1 ≤ i) :
    stepCmd (stateMid i) false = stateMid (i + 1) := by
  rcases Nat.lt_or_ge i 2 with h2 | h2
  · have h1 : i = 1 := by omega
    subst h1
    decide
  · have ha : ¬ i ≤ 1 := by omega
    have hb : ¬ i + 1 ≤ 1 := by omega
    have hc : i - 1 ≠ i - 2 := by omega
    have he : i + 1 - 2 = i - 1 := by omega
    have hf : i + 1 - 1 = i := by omega
    by_cases hpar : i % 2 = 1
    · have hpar2 : ¬ ((i + 1) % 2 = 1) := by omega
      simp [stepCmd, flipStep, closeStale, closeStale1, closeStale2, closeFD, allocStep,
            getSlot, setSlot, pairSlot, stateMid, ha, hb, hpar, hpar2, hc, he, hf,
            List.filter_cons, List.filter_nil]
    · have hpar1 : ¬ (i % 2 = 1) := hpar
      have hpar2 : (i + 1) % 2 = 1 := by omega
      simp [stepCmd, flipStep, closeStale, closeStale1, closeStale2, closeFD, allocStep,
            getSlot, setSlot, pairSlot, stateMid, ha, hb, hpar1, hpar2, hc, he, hf,
            List.filter_cons, List.filter_nil]

theorem stepCmd_stateMid_true (i : Nat) (hi : 1 ≤ i) :
    stepCmd (stateMid i) true = stateEnd (i + 1) := by
  rcases Nat.lt_or_ge i 2 with h2 | h2
  · have h1 : i = 1 := by omega
    subst h1
    decide
  · have ha : ¬ i ≤ 1 := by omega
    have hb : ¬ i + 1 ≤ 1 := by omega
    have hc : i - 1 ≠ i - 2 := by omega
    have he : i + 1 - 2 = i - 1 := by omega
    have hf : i + 1 - 1 = i := by omega
    by_cases hpar : i % 2 = 1
    · have hpar2 : ¬ ((i + 1) % 2 = 1) := by omega
      simp [stepCmd, flipStep, closeStale, closeStale1, closeStale2, closeFD, allocStep,
            getSlot, setSlot, pairSlot, stateMid, stateEnd, ha, hb, hpar, hpar2, hc, he, hf,
            List.filter_cons, List.filter_nil]
    · have hpar1 : ¬ (i % 2 = 1) := hpar
      have hpar2 : (i + 1) % 2 = 1 := by omega
      simp [stepCmd, flipStep, closeStale, closeStale1, closeStale2, closeFD, allocStep,
            getSlot, setSlot, pairSlot, stateMid, stateEnd, ha, hb, hpar1, hpar2, hc, he, hf,
            List.filter_cons, List.filter_nil]

/-- The loop state after `i` of `n` iterations, `i` not yet the last, is the
mid closed form. -/
theorem runSteps_mid (n i : Nat) (h1 : 1 ≤ i) (h2 : i < n) :
    runSteps n i = stateMid i := by
  induction i with
  | zero => omega
  | succ j ih =>
    rcases Nat.eq_zero_or_pos j with hj | hj
    · subst hj
      have : ¬ (0 + 1 = n) := by omega
      simp [runSteps, this, stepCmd_init_false]
    · have hjn : ¬ (j + 1 = n) := by omega
      have hm : runSteps n j = stateMid j := ih hj (by omega)
      simp [runSteps, hjn, hm, stepCmd_stateMid_false j hj]

/-- The loop state after all `n` iterations is the end closed form. -/
theorem runSteps_end (n : Nat) (h1 : 1 ≤ n) :
    runSteps n n = stateEnd n := by
  rcases Nat.eq_or_lt_of_le h1 with h | h
  · subst h
    simp [runSteps, stepCmd_init_true]
  · obtain ⟨m, rfl⟩ : ∃ m, n = m + 1 := ⟨n - 1, by omega⟩
    have hm : runSteps (m + 1) m = stateMid m := runSteps_mid (m + 1) m (by omega) (by omega)
    simp [runSteps, hm, stepCmd_stateMid_true m (by omega)]

/-! ## The spawn wiring in closed form -/

theorem childStdin_stateMid (i : Nat) (h2 : 2 ≤ i) :
    childStdin (stateMid i) = FD.pr (i - 2) := by
  have ha : ¬ i ≤ 1 := by omega
  by_cases hpar : i % 2 = 1
  · simp [childStdin, getSlot, stateMid, pairSlot, ha, hpar]
  · simp [childStdin, getSlot, stateMid, pairSlot, ha, hpar]

theorem childStdout_stateMid (i : Nat) (h1 : 1 ≤ i) :
    childStdout (stateMid i) = FD.pw (i - 1) := by
  rcases Nat.lt_or_ge i 2 with h2 | h2
  · have : i = 1 := by omega
    subst this
    decide
  · have ha : ¬ i ≤ 1 := by omega
    by_cases hpar : i % 2 = 1
    · simp [childStdout, getSlot, stateMid, pairSlot, ha, hpar]
    · simp [childStdout, getSlot, stateMid, pairSlot, ha, hpar]

theorem childStdin_stateEnd (n : Nat) (h2 : 2 ≤ n) :
    childStdin (stateEnd n) = FD.pr (n - 2) := by
  have ha : ¬ n ≤ 1 := by omega
  by_cases hpar : n % 2 = 1
  · simp [childStdin, getSlot, stateEnd, pairSlot, ha, hpar]
  · simp [childStdin, getSlot, stateEnd, pairSlot, ha, hpar]

theorem childStdout_stateEnd (n : Nat) (h1 : 1 ≤ n) :
    childStdout (stateEnd n) = FD.stdout := by
  rcases Nat.lt_or_ge n 2 with h2 | h2
  · have : n = 1 := by omega
    subst this
    decide
  · have ha : ¬ n ≤ 1 := by omega
    by_cases hpar : n % 2 = 1
    · simp [childStdout, getSlot, stateEnd, ha, hpar]
    · simp [childStdout, getSlot, stateEnd, ha, hpar]

/-- Closed form of the input source of command `j` in an `n`-command
pipeline: the shell's real standard input for the first command, the read
endpoint of pipe `j - 1` afterwards. -/
theorem inputSource_eq (n j : Nat) (hj : j < n) :
    inputSource n j = if j = 0 then FD.stdin else FD.pr (j - 1) := by
  rcases Nat.eq_or_lt_of_le (Nat.succ_le_of_lt hj) with h | h
  · -- j is the last command: spawn state is the end form
    have h' : j + 1 = n := by omega
    have he : runSteps n (j + 1) = stateEnd n := by
      rw [h']; exact runSteps_end n (by omega)
    rcases Nat.eq_zero_or_pos j with hj0 | hj0
    · subst hj0
      have : n = 1 := by omega
      subst this
      decide
    · have : (2 : Nat) ≤ n := by omega
      rw [inputSource, spawnState, he, childStdin_stateEnd n this]
      have : ¬ (j = 0) := by omega
      simp [this]
      omega
  · -- j has a successor: spawn state is the mid form
    have hm : runSteps n (j + 1) = stateMid (j + 1) := runSteps_mid n (j + 1) (by omega) h
    rcases Nat.eq_zero_or_pos j with hj0 | hj0
    · subst hj0
      rw [inputSource, spawnState, hm]
      decide
    · rw [inputSource, spawnState, hm, childStdin_stateMid (j + 1) (by omega)]
      have : ¬ (j = 0) := by omega
      simp [this]

/-- Closed form of the output sink of command `j` in an `n`-command
pipeline: the write endpoint of pipe `j` for a command with a successor,
the shell's real standard output for the last command. -/
theorem outputSink_eq (n j : Nat) (hj : j < n) :
    outputSink n j = if j + 1 = n then FD.stdout else FD.pw j := by
  rcases Nat.eq_or_lt_of_le (Nat.succ_le_of_lt hj) with h | h
  · have h' : j + 1 = n := by omega
    have he : runSteps n (j + 1) = stateEnd n := by
      rw [h']; exact runSteps_end n (by omega)
    rw [outputSink, spawnState, he, childStdout_stateEnd n (by omega)]
    simp [h']
  · have hm : runSteps n (j + 1) = stateMid (j + 1) := runSteps_mid n (j + 1) (by omega) h
    rw [outputSink, spawnState, hm, childStdout_stateMid (j + 1) (by omega)]
    have : ¬ (j + 1 = n) := by omega
    simp [this]

/-- C1: for every pipeline and every command in it, at the moment the
command is spawned the wiring invariant holds: the not-current slot's read
endpoint (`mypipes[!pipenum][0]`) is that command's input source and the
current slot's write endpoint (`mypipes[pipenum][1]`) is its output sink;
the input source is the shell's real standard input for the first command
and the read endpoint of pipe `j - 1` for command `j > 0`; the output sink
is the write endpoint of pipe `j` when command `j` has a successor and the
shell's real standard output for the last command.  Consequently each
non-terminal command's output sink is the paired write endpoint of the next
command's input source. -/
theorem pipeline_wiring_C1 (n j : Nat) (_hn : 1 ≤ n) (hj : j < n) :
    inputSource n j = childStdin (spawnState n j) ∧
    outputSink n j = childStdout (spawnState n j) ∧
    inputSource n j = (if j = 0 then FD.stdin else FD.pr (j - 1)) ∧
    outputSink n j = (if j + 1 = n then FD.stdout else FD.pw j) ∧
    (j + 1 < n → outputSink n j = pairedWrite (inputSource n (j + 1))) := by
  refine ⟨rfl, rfl, inputSource_eq n j hj, outputSink_eq n j hj, ?_⟩
  intro hsucc
  have h1 : outputSink n j = FD.pw j := by
    rw [outputSink_eq n j hj]
    have : ¬ (j + 1 = n) := by omega
    simp [this]
  have h2 : inputSource n (j + 1) = FD.pr j := by
    rw [inputSource_eq n (j + 1) hsucc]
    simp
  rw [h1, h2, pairedWrite]

/-- Witness: the `A | B | C` instance of the wiring invariant: A's output
sink is the paired write endpoint of B's input source, B's output sink is
the paired write endpoint of C's input source, and C's output sink is the
shell's real standard output. -/
theorem pipeline_wiring_C1_witness :
    outputSink 3 0 = pairedWrite (inputSource 3 1) ∧
    outputSink 3 1 = pairedWrite (inputSource 3 2) ∧
    outputSink 3 2 = FD.stdout := by
  refine ⟨(pipeline_wiring_C1 3 0 (by decide) (by decide)).2.2.2.2 (by decide),
          (pipeline_wiring_C1 3 1 (by decide) (by decide)).2.2.2.2 (by decide), ?_⟩
  have h := (pipeline_wiring_C1 3 2 (by decide) (by decide)).2.2.2.1
  simpa using h

/-! ## Open-descriptor accounting -/

theorem openPairCount_closeFD (s : ShellState) (fd : FD) :
    openPairCount (closeFD s fd) ≤ openPairCount s := by
  unfold openPairCount closeFD
  apply Finset.card_le_card
  intro x hx
  simp only [List.mem_toFinset, List.mem_filterMap, List.mem_filter] at hx ⊢
  obtain ⟨a, ⟨ha, _⟩, hax⟩ := hx
  exact ⟨a, ha, hax⟩

theorem openPairCount_flipStep (s : ShellState) :
    openPairCount (flipStep s) = openPairCount s := rfl

theorem openPairCount_closeStale1 (s : ShellState) :
    openPairCount (closeStale1 s) ≤ openPairCount s := by
  unfold closeStale1
  split
  · exact openPairCount_closeFD s _
  · exact Nat.le_refl _

theorem openPairCount_closeStale2 (s : ShellState) :
    openPairCount (closeStale2 s) ≤ openPairCount s := by
  unfold closeStale2
  split
  · exact openPairCount_closeFD s _
  · exact Nat.le_refl _

theorem openPairCount_finalClose1 (s : ShellState) :
    openPairCount (finalClose1 s) ≤ openPairCount s := by
  unfold finalClose1
  split
  · exact openPairCount_closeFD s _
  · exact Nat.le_refl _

theorem openPairCount_finalClose2 (s : ShellState) :
    openPairCount (finalClose2 s) ≤ openPairCount s := by
  unfold finalClose2
  split
  · exact openPairCount_closeFD s _
  · exact Nat.le_refl _

theorem openPairCount_finalClose3 (s : ShellState) :
    openPairCount (finalClose3 s) ≤ openPairCount s := by
  unfold finalClose3
  split
  · exact openPairCount_closeFD s _
  · exact Nat.le_refl _

theorem openPairCount_stateMid (i : Nat) : openPairCount (stateMid i) ≤ 2 := by
  unfold stateMid openPairCount
  split
  · decide
  · simp only [pipeIdx, List.filterMap_cons, List.filterMap_nil, List.toFinset_cons,
      List.toFinset_nil, Finset.insert_idem]
    exact le_trans (Finset.card_insert_le _ _) (by simp [Finset.card_insert_le])

theorem openPairCount_stateEnd (n : Nat) : openPairCount (stateEnd n) ≤ 2 := by
  unfold stateEnd openPairCount
  split
  · decide
  · simp only [pipeIdx, List.filterMap_cons, List.filterMap_nil, List.toFinset_cons,
      List.toFinset_nil, Finset.insert_idem]
    exact le_trans (Finset.card_insert_le _ _) (by simp)

theorem openPairCount_runSteps (n i : Nat) (hn : 1 ≤ n) (h : i ≤ n) :
    openPairCount (runSteps n i) ≤ 2 := by
  rcases Nat.eq_zero_or_pos i with h0 | h0
  · subst h0
    have h00 : runSteps n 0 = initShellState := rfl
    rw [h00]
    decide
  · rcases Nat.eq_or_lt_of_le h with he | hlt
    · subst he
      rw [runSteps_end i hn]
      exact openPairCount_stateEnd i
    · rw [runSteps_mid n i h0 hlt]
      exact openPairCount_stateMid i

theorem not_mem_filter_ne (l : List FD) (x : FD) : x ∉ l.filter (fun y => y != x) := by
  intro h
  simp [List.mem_filter] at h

theorem not_mem_filter_of_not_mem (l : List FD) (p : FD → Bool) (x : FD) (h : x ∉ l) :
    x ∉ l.filter p := fun hm => h (List.mem_of_mem_filter hm)

/-- The shell never records its real standard input or output among the
open pipe endpoints. -/
theorem std_not_open (n i : Nat) (hn : 1 ≤ n) (h : i ≤ n) :
    FD.stdin ∉ (runSteps n i).openEnds ∧ FD.stdout ∉ (runSteps n i).openEnds := by
  rcases Nat.eq_zero_or_pos i with h0 | h0
  · subst h0
    have h00 : runSteps n 0 = initShellState := rfl
    rw [h00]
    decide
  · rcases Nat.eq_or_lt_of_le h with he | hlt
    · subst he
      rw [runSteps_end i hn]
      unfold stateEnd
      split <;> simp
    · rw [runSteps_mid n i h0 hlt]
      unfold stateMid
      split <;> simp

/-- After the flip-and-close prologue of a loop iteration, neither endpoint
recorded in the now-current slot is still open in the shell: the stale
endpoints are closed before a new pair is allocated into the slot. -/
theorem staleCleared (s : ShellState) (hin : FD.stdin ∉ s.openEnds)
    (hout : FD.stdout ∉ s.openEnds) :
    (getSlot (closeStale s) (closeStale s).pipenum).1 ∉ (closeStale s).openEnds ∧
    (getSlot (closeStale s) (closeStale s).pipenum).2 ∉ (closeStale s).openEnds := by
  have hslots1 : ∀ t : ShellState, ∀ fd, (closeFD t fd).slot0 = t.slot0 ∧
      (closeFD t fd).slot1 = t.slot1 ∧ (closeFD t fd).pipenum = t.pipenum := by
    intro t fd
    simp [closeFD]
  unfold closeStale closeStale2 closeStale1
  split <;> split <;>
    simp_all [getSlot, closeFD, not_mem_filter_ne, not_mem_filter_of_not_mem]

/-- Every state in the construction trace of the first `i` iterations keeps
at most two pipes open. -/
theorem tracePoints_bound (n : Nat) (hn : 1 ≤ n) :
    ∀ i, i ≤ n → ∀ s ∈ tracePoints n i, openPairCount s ≤ 2 := by
  intro i
  induction i with
  | zero =>
    intro _ s hs
    simp [tracePoints] at hs
    subst hs
    decide
  | succ j ih =>
    intro hj s hs
    simp only [tracePoints, List.mem_append] at hs
    rcases hs with hs | hs
    · exact ih (by omega) s hs
    · have hbase : openPairCount (runSteps n j) ≤ 2 :=
        openPairCount_runSteps n j hn (by omega)
      have hflip : openPairCount (flipStep (runSteps n j)) ≤ 2 := by
        rw [openPairCount_flipStep]
        exact hbase
      have hc1 : openPairCount (closeStale1 (flipStep (runSteps n j))) ≤ 2 :=
        le_trans (openPairCount_closeStale1 _) hflip
      have hc2 : openPairCount (closeStale (flipStep (runSteps n j))) ≤ 2 :=
        le_trans (openPairCount_closeStale2 _) hc1
      have hstep : openPairCount (stepCmd (runSteps n j) (decide (j + 1 = n))) ≤ 2 := by
        have : stepCmd (runSteps n j) (decide (j + 1 = n)) = runSteps n (j + 1) := rfl
        rw [this]
        exact openPairCount_runSteps n (j + 1) hn hj
      simp only [iterPoints, List.mem_cons, List.not_mem_nil, or_false] at hs
      rcases hs with rfl | rfl | rfl | rfl
      · exact hflip
      · exact hc1
      · exact hc2
      · exact hstep

/-- C2: while constructing a pipeline of `n ≥ 1` commands the shell holds
at most two channel pairs open at every point passed through (after every
flip, every close and every allocation, and through the final cleanup
closes), and flipping the parity closes the stale endpoints of the reused
slot before a new pair is allocated into it: at the point between the
closes and the allocation, neither endpoint recorded in the current slot is
open in the shell. -/
theorem channel_pairs_C2 (n : Nat) (hn : 1 ≤ n) :
    (∀ s ∈ allPoints n, openPairCount s ≤ 2) ∧
    (∀ i, i < n →
      (getSlot (closeStale (flipStep (runSteps n i)))
          (closeStale (flipStep (runSteps n i))).pipenum).1 ∉
        (closeStale (flipStep (runSteps n i))).openEnds ∧
      (getSlot (closeStale (flipStep (runSteps n i)))
          (closeStale (flipStep (runSteps n i))).pipenum).2 ∉
        (closeStale (flipStep (runSteps n i))).openEnds) := by
  constructor
  · intro s hs
    simp only [allPoints, List.mem_append, List.mem_cons, List.not_mem_nil, or_false] at hs
    rcases hs with hs | rfl | rfl | rfl | rfl
    · exact tracePoints_bound n hn n (Nat.le_refl n) s hs
    · exact le_trans (openPairCount_finalClose1 _) (openPairCount_runSteps n n hn (Nat.le_refl n))
    · exact le_trans (openPairCount_finalClose2 _)
        (le_trans (openPairCount_finalClose1 _) (openPairCount_runSteps n n hn (Nat.le_refl n)))
    · exact le_trans (openPairCount_finalClose3 _)
        (le_trans (openPairCount_finalClose2 _)
          (le_trans (openPairCount_finalClose1 _) (openPairCount_runSteps n n hn (Nat.le_refl n))))
    · have h4 : openPairCount (finalClose (runSteps n n)) ≤
          openPairCount (finalClose3 (finalClose2 (finalClose1 (runSteps n n)))) := by
        unfold finalClose finalClose4
        split
        · exact openPairCount_closeFD _ _
        · exact Nat.le_refl _
      exact le_trans h4 (le_trans (openPairCount_finalClose3 _)
        (le_trans (openPairCount_finalClose2 _)
          (le_trans (openPairCount_finalClose1 _)
            (openPairCount_runSteps n n hn (Nat.le_refl n)))))
  · intro i hi
    have hstd := std_not_open n i hn (by omega)
    have hstd1 : FD.stdin ∉ (flipStep (runSteps n i)).openEnds := hstd.1
    have hstd2 : FD.stdout ∉ (flipStep (runSteps n i)).openEnds := hstd.2
    exact staleCleared (flipStep (runSteps n i)) hstd1 hstd2

/-- Witness for C2: at the busiest point of a three-command pipeline (just
after the second command's pipe has been allocated) at most two pairs are
open. -/
theorem channel_pairs_C2_witness : openPairCount (runSteps 3 2) ≤ 2 :=
  (channel_pairs_C2 3 (by decide)).1 (runSteps 3 2) (by decide)

/-- C3: after the last command of a pipeline has been launched and the
cleanup block of `process_pipe` (lines 276-283) has run, the shell holds
none of the pipeline's internal channel endpoints open: the open-endpoint
list is empty before the shell waits on any child. -/
theorem pipeline_cleanup_C3 (n : Nat) (hn : 1 ≤ n) :
    (finalClose (runSteps n n)).openEnds = [] := by
  rw [runSteps_end n hn]
  unfold stateEnd
  split
  · decide
  · by_cases hpar : n % 2 = 1
    · simp [finalClose, finalClose1, finalClose2, finalClose3, finalClose4, closeFD,
        pairSlot, hpar, List.filter_cons, List.filter_nil]
    · simp [finalClose, finalClose1, finalClose2, finalClose3, finalClose4, closeFD,
        pairSlot, hpar, List.filter_cons, List.filter_nil]

/-- Witness for C3 at a three-command pipeline. -/
theorem pipeline_cleanup_C3_witness : (finalClose (runSteps 3 3)).openEnds = [] :=
  pipeline_cleanup_C3 3 (by decide)

/-! ## Builtin lookup and the process launcher (`is_builtin`, `process_cmd`) -/

/-- The names of the builtin dispatch table `builtin_cmd_handle`
(main.c lines 59-68), in order. -/
def builtin_names : List String :=
  ["cd", "echo", "logout", "nice", "pwd", "setenv", "unsetenv", "where"]

/-- Linear scan of the dispatch table starting at index `i`
(`is_builtin`, lines 477-489): the first matching index, or -1. -/
def scanBuiltin : List String → String → Nat → Int
  | [], _, _ => -1
  | x :: rest, name, i => if x = name then Int.ofNat i else scanBuiltin rest name (i + 1)

/-- `is_builtin(cmd_name)`: index of the builtin in the table, or -1. -/
def is_builtin (name : String) : Int := scanBuiltin builtin_names name 0

theorem scanBuiltin_eq_neg_one (l : List String) (name : String) (i : Nat) :
    scanBuiltin l name i = -1 ↔ name ∉ l := by
  induction l generalizing i with
  | nil => simp [scanBuiltin]
  | cons x rest ih =>
    simp only [scanBuiltin, List.mem_cons]
    split
    · rename_i hx
      subst hx
      constructor
      · intro h
        exact absurd h (by simp [Int.ofNat])
      · intro h
        exact absurd (Or.inl rfl) h
    · rename_i hx
      rw [ih (i + 1)]
      constructor
      · intro h hc
        rcases hc with hc | hc
        · exact hx hc.symm
        · exact h hc
      · intro h hc
        exact h (Or.inr hc)

/-- `is_builtin` returns -1 exactly for names outside the dispatch table. -/
theorem is_builtin_eq_neg_one (name : String) : is_builtin name = -1 ↔ name ∉ builtin_names :=
  scanBuiltin_eq_neg_one builtin_names name 0

/-- One step performed inside a launched command's process, in program
order. -/
inductive ChildStep where
  | resetSignals : ChildStep
  | pipeRedirect : ChildStep
  | ioRedirect : ChildStep
  | runBuiltin : Nat → ChildStep
  | exitCode : Int → ChildStep
  | execImage : String → ChildStep
deriving DecidableEq, Repr

/-- What `process_cmd` does for one command.  `exitShell` is the `end`
sentinel path (line 319-320); `direct steps` executes `steps` in the
shell's own process with the real standard input and output saved before
and restored afterwards (lines 328-344); `spawnChild steps` forks and
executes `steps` in the child (lines 346-366 and 368-397). -/
inductive LaunchAction where
  | exitShell : LaunchAction
  | direct : List ChildStep → LaunchAction
  | spawnChild : List ChildStep → LaunchAction
deriving DecidableEq, Repr

/-- The decision taken by `process_cmd` (main.c lines 315-400) for a
command whose first word is `name`, where `isLast` says the command has no
successor in its pipeline and `rc` is the `processing_rc` flag. -/
def process_cmd_action (name : String) (isLast rc : Bool) : LaunchAction :=
  if name = "end" ∧ rc = false then LaunchAction.exitShell
  else
    let i := is_builtin name
    if i ≠ -1 then
      if isLast then
        LaunchAction.direct
          [ChildStep.pipeRedirect, ChildStep.ioRedirect, ChildStep.runBuiltin i.toNat]
      else
        LaunchAction.spawnChild
          [ChildStep.resetSignals, ChildStep.pipeRedirect, ChildStep.ioRedirect,
           ChildStep.runBuiltin i.toNat, ChildStep.exitCode 0]
    else
      LaunchAction.spawnChild
        [ChildStep.resetSignals, ChildStep.pipeRedirect, ChildStep.ioRedirect,
         ChildStep.execImage name]

/-- Counterexample to C4 as stated: the command `end` typed outside of
startup-script sourcing is not a builtin, yet the launcher neither runs a
table handler nor spawns a process for it — `process_cmd` exits the shell
at line 319-320 before consulting the decision table. -/
theorem launcher_C4_counterexample :
    is_builtin "end" = -1 ∧
    process_cmd_action "end" true false = LaunchAction.exitShell ∧
    process_cmd_action "end" true false ≠
      LaunchAction.spawnChild [ChildStep.resetSignals, ChildStep.pipeRedirect,
        ChildStep.ioRedirect, ChildStep.execImage "end"] ∧
    process_cmd_action "end" false false ≠
      LaunchAction.spawnChild [ChildStep.resetSignals, ChildStep.pipeRedirect,
        ChildStep.ioRedirect, ChildStep.execImage "end"] := by decide

/-- C4 (amended to exempt the end-of-input sentinel): for every command
other than `end` outside startup-script sourcing, the launcher follows the
decision table: a builtin that is last runs its handler directly in the
shell's process (standard input/output saved and restored around the
call); a builtin with a successor runs in a spawned process that resets
signal dispositions, applies channel wiring then redirection, runs the
handler and exits with status 0; a non-builtin at any position runs in a
spawned process that resets dispositions, applies wiring then redirection
and replaces its image with the named executable.  The handler index used
is the table entry whose name matches the command. -/
theorem launcher_C4_amended (name : String) (isLast rc : Bool)
    (hend : ¬ (name = "end" ∧ rc = false)) :
    (name ∈ builtin_names → isLast = true →
      process_cmd_action name isLast rc =
        LaunchAction.direct [ChildStep.pipeRedirect, ChildStep.ioRedirect,
          ChildStep.runBuiltin (is_builtin name).toNat]) ∧
    (name ∈ builtin_names → isLast = false →
      process_cmd_action name isLast rc =
        LaunchAction.spawnChild [ChildStep.resetSignals, ChildStep.pipeRedirect,
          ChildStep.ioRedirect, ChildStep.runBuiltin (is_builtin name).toNat,
          ChildStep.exitCode 0]) ∧
    (name ∉ builtin_names →
      process_cmd_action name isLast rc =
        LaunchAction.spawnChild [ChildStep.resetSignals, ChildStep.pipeRedirect,
          ChildStep.ioRedirect, ChildStep.execImage name]) ∧
    (name ∈ builtin_names → builtin_names.getD (is_builtin name).toNat "" = name) := by
  have hne : name ∈ builtin_names → is_builtin name ≠ -1 := by
    intro hmem
    rw [Ne, is_builtin_eq_neg_one]
    simp [hmem]
  refine ⟨?_, ?_, ?_, ?_⟩
  · intro hmem hlast
    subst hlast
    simp [process_cmd_action, hend, hne hmem]
  · intro hmem hlast
    subst hlast
    simp [process_cmd_action, hend, hne hmem]
  · intro hmem
    have h1 : is_builtin name = -1 := (is_builtin_eq_neg_one name).mpr hmem
    simp [process_cmd_action, hend, h1]
  · intro hmem
    fin_cases hmem <;> decide

/-- Witness for C4: each row of the decision table at a concrete command
(`echo` is a builtin, `ls` is not). -/
theorem launcher_C4_witness :
    process_cmd_action "echo" true false =
      LaunchAction.direct [ChildStep.pipeRedirect, ChildStep.ioRedirect,
        ChildStep.runBuiltin (is_builtin "echo").toNat] ∧
    process_cmd_action "echo" false false =
      LaunchAction.spawnChild [ChildStep.resetSignals, ChildStep.pipeRedirect,
        ChildStep.ioRedirect, ChildStep.runBuiltin (is_builtin "echo").toNat,
        ChildStep.exitCode 0] ∧
    process_cmd_action "ls" true false =
      LaunchAction.spawnChild [ChildStep.resetSignals, ChildStep.pipeRedirect,
        ChildStep.ioRedirect, ChildStep.execImage "ls"] :=
  ⟨(launcher_C4_amended "echo" true false (by decide)).1 (by decide) rfl,
   (launcher_C4_amended "echo" false false (by decide)).2.1 (by decide) rfl,
   (launcher_C4_amended "ls" true false (by decide)).2.2.1 (by decide)⟩

/-! ## The redirection applier (`perform_io_redirect`) -/

/-- Redirection tokens of the parser (`parse.h`): `Tin` marks input
redirection; the output tokens are truncate (`Tout`), append (`Tapp`),
their both-streams variants (`ToutErr`, `TappErr`), and the pipe tokens
(`Tpipe`, `TpipeErr`) which `perform_io_redirect` ignores. -/
inductive Token where
  | Tnil : Token
  | Tin : Token
  | Tout : Token
  | Tapp : Token
  | ToutErr : Token
  | TappErr : Token
  | Tpipe : Token
  | TpipeErr : Token
deriving DecidableEq, Repr

/-- The redirection-relevant fields of a parsed command (`Cmd`):
`c->in`, `c->infile`, `c->out`, `c->outfile`. -/
structure CmdRedir where
  inTok : Token
  infile : String
  outTok : Token
  outfile : String
deriving DecidableEq, Repr

/-- What one of the three standard streams of a command's process is bound
to after `perform_io_redirect`: whatever stream `k` was already bound to
before the call, or a file opened here (with its append flag). -/
inductive StreamSrc where
  | prior : Nat → StreamSrc
  | file : String → Bool → StreamSrc
deriving DecidableEq, Repr

/-- The bindings of descriptors 0, 1 and 2 of the command's process. -/
structure Streams where
  fd0 : StreamSrc
  fd1 : StreamSrc
  fd2 : StreamSrc
deriving DecidableEq, Repr

/-- Outcome of `perform_io_redirect`: either the process called `exit(-1)`
without ever running the command body, or it continues with the given
stream bindings. -/
inductive IORResult where
  | exited : Int → IORResult
  | ok : Streams → IORResult
deriving DecidableEq, Repr

/-- The output half of `perform_io_redirect` (main.c lines 417-457):
opening the output file with the mode of the token; on success descriptor 1
(and for the both-streams variants also descriptor 2) is repointed at the
file; on failure nothing happens and the command continues with the
streams it already has.  `Tnil`, `Tpipe` and `TpipeErr` have no case in
the switch. -/
def redirectOut (c : CmdRedir) (openOut : String → Bool) (s : Streams) : IORResult :=
  match c.outTok with
  | Token.Tout =>
    if openOut c.outfile then IORResult.ok { s with fd1 := StreamSrc.file c.outfile false }
    else IORResult.ok s
  | Token.Tapp =>
    if openOut c.outfile then IORResult.ok { s with fd1 := StreamSrc.file c.outfile true }
    else IORResult.ok s
  | Token.ToutErr =>
    if openOut c.outfile then
      IORResult.ok { s with fd1 := StreamSrc.file c.outfile false,
                            fd2 := StreamSrc.file c.outfile false }
    else IORResult.ok s
  | Token.TappErr =>
    if openOut c.outfile then
      IORResult.ok { s with fd1 := StreamSrc.file c.outfile true,
                            fd2 := StreamSrc.file c.outfile true }
    else IORResult.ok s
  | _ => IORResult.ok s

/-- `perform_io_redirect` (main.c lines 403-458).  `openIn f` says whether
`open(f, O_RDONLY)` succeeds, `openOut f` whether the output open call
succeeds.  Input redirection runs first (lines 408-416): on success
descriptor 0 is repointed at the file, on failure the process calls
`exit(-1)`.  Then the output switch runs. -/
def perform_io_redirect (c : CmdRedir) (openIn openOut : String → Bool) : IORResult :=
  let s0 : Streams := { fd0 := StreamSrc.prior 0, fd1 := StreamSrc.prior 1,
                        fd2 := StreamSrc.prior 2 }
  if c.inTok = Token.Tin then
    if openIn c.infile then
      redirectOut c openOut { s0 with fd0 := StreamSrc.file c.infile false }
    else IORResult.exited (-1)
  else redirectOut c openOut s0

/-- C5: failure to open the input-redirection file makes the command's
process call `exit(-1)` before the command body ever runs (abnormal
termination, no output), while failure to open an output-redirection
target is silently tolerated: the process continues, with descriptors 1
and 2 still bound to whatever they were bound to before the call. -/
theorem redirect_asymmetry_C5 (c : CmdRedir) (openIn openOut : String → Bool) :
    (c.inTok = Token.Tin → openIn c.infile = false →
      perform_io_redirect c openIn openOut = IORResult.exited (-1)) ∧
    (openOut c.outfile = false → (c.inTok ≠ Token.Tin ∨ openIn c.infile = true) →
      perform_io_redirect c openIn openOut =
        IORResult.ok
          { fd0 := if c.inTok = Token.Tin then StreamSrc.file c.infile false
                   else StreamSrc.prior 0,
            fd1 := StreamSrc.prior 1, fd2 := StreamSrc.prior 2 }) := by
  constructor
  · intro hin hfail
    simp [perform_io_redirect, hin, hfail]
  · intro hfail hin
    rcases hin with hin | hin
    · cases c with
      | mk inTok infile outTok outfile =>
        cases outTok <;> simp_all [perform_io_redirect, redirectOut]
    · cases c with
      | mk inTok infile outTok outfile =>
        by_cases h0 : inTok = Token.Tin <;>
          cases outTok <;> simp_all [perform_io_redirect, redirectOut]

/-- Witness for C5: a command redirecting input from an unopenable file
exits with -1; a command whose output target cannot be opened continues
with its prior streams. -/
theorem redirect_asymmetry_C5_witness :
    perform_io_redirect
      { inTok := Token.Tin, infile := "nofile", outTok := Token.Tnil, outfile := "" }
      (fun _ => false) (fun _ => false) = IORResult.exited (-1) ∧
    perform_io_redirect
      { inTok := Token.Tnil, infile := "", outTok := Token.Tout, outfile := "out" }
      (fun _ => false) (fun _ => false) =
      IORResult.ok { fd0 := StreamSrc.prior 0, fd1 := StreamSrc.prior 1,
                     fd2 := StreamSrc.prior 2 } := by
  constructor
  · exact (redirect_asymmetry_C5 _ _ _).1 rfl rfl
  · have h := (redirect_asymmetry_C5
      { inTok := Token.Tnil, infile := "", outTok := Token.Tout, outfile := "out" }
      (fun _ => false) (fun _ => false)).2 rfl (Or.inl (by decide))
    simpa using h

/-! ## The echo builtin (`exec_echo`) -/

/-- The output of the `while(c->args[++i] != NULL) printf("%s ", c->args[i])`
loop of `exec_echo` (line 528-529): every word is printed followed by one
space. -/
def echoLoop : List String → String
  | [] => ""
  | w :: ws => w ++ " " ++ echoLoop ws

/-- `exec_echo` (main.c lines 525-533): `args` is the full argument vector
including the command name in `args[0]`; the loop prints the words from
`args[1]` on, then a newline is printed only when at least one word was
printed (`if(i != 1)`). -/
def exec_echo (args : List String) : String :=
  echoLoop (args.drop 1) ++ (if args.drop 1 = [] then "" else "\n")

/-- Counterexample to C9 as stated: `echo a b c` does not write the exact
characters `a b c` followed by a newline — the loop prints a space after
every word, including the last, so the output is `a b c \n` (with a space
before the newline). -/
theorem echo_C9_counterexample :
    exec_echo ["echo", "a", "b", "c"] = "a b c \n" ∧
    exec_echo ["echo", "a", "b", "c"] ≠ "a b c\n" := by
  constructor <;> decide

/-- C9 (amended): `echo a b c` writes each argument followed by one space
— `a b c ` — and then a single newline, i.e. exactly `a b c \n`; `echo`
with no arguments writes nothing at all (no output and no newline). -/
theorem echo_C9_amended :
    exec_echo ["echo", "a", "b", "c"] = "a b c \n" ∧ exec_echo ["echo"] = "" := by
  constructor <;> decide

/-! ## The nice builtin (`exec_nice`, `is_number`) -/

/-- The digit-scan loop of `is_number` (main.c lines 684-688): true iff
every remaining character is a decimal digit. -/
def allDigits : List Char → Bool
  | [] => true
  | c :: cs => if c.isDigit then allDigits cs else false

/-- `is_number(str)` (main.c lines 679-690): skip one leading `-`, then
require every remaining character to be a digit.  An empty remainder
passes the loop, so `""` and `"-"` are accepted. -/
def is_number : List Char → Bool
  | [] => allDigits []
  | c :: cs => if c = '-' then allDigits cs else allDigits (c :: cs)

/-- The wording of the claim: an optional leading `-` followed only by
digits. -/
def numericSpec (s : List Char) : Prop :=
  (∀ c ∈ s, c.isDigit) ∨ ∃ t, s = '-' :: t ∧ ∀ c ∈ t, c.isDigit

theorem allDigits_iff (s : List Char) : allDigits s = true ↔ ∀ c ∈ s, c.isDigit := by
  induction s with
  | nil => simp [allDigits]
  | cons c cs ih =>
    by_cases hc : c.isDigit
    · simp [allDigits, hc, ih]
    · simp [allDigits, hc]

/-- The source's numeric test agrees exactly with the claim's wording. -/
theorem is_number_iff (s : List Char) : is_number s = true ↔ numericSpec s := by
  cases s with
  | nil =>
    simp only [is_number, numericSpec]
    simp [allDigits]
  | cons c cs =>
    by_cases hc : c = '-'
    · subst hc
      have h1 : is_number ('-' :: cs) = allDigits cs := by simp [is_number]
      rw [h1, allDigits_iff]
      unfold numericSpec
      constructor
      · intro h
        exact Or.inr ⟨cs, rfl, h⟩
      · intro h
        rcases h with h | ⟨t, ht, hd⟩
        · exact absurd (h '-' (by simp)) (by decide)
        · obtain rfl : cs = t := by simpa using ht
          exact hd
    · have h1 : is_number (c :: cs) = allDigits (c :: cs) := by simp [is_number, hc]
      rw [h1, allDigits_iff]
      unfold numericSpec
      constructor
      · intro h
        exact Or.inl h
      · intro h
        rcases h with h | ⟨t, ht, hd⟩
        · exact h
        · exact absurd ht (by simp [List.cons.injEq, hc])

/-- The digit-accumulation loop of `atoi`, mathematically (no 32-bit
overflow is modelled): consume digits, stop at the first non-digit. -/
def atoiDigits : List Char → Nat → Nat
  | [], acc => acc
  | c :: cs, acc =>
    if c.isDigit then atoiDigits cs (acc * 10 + (c.toNat - Char.toNat '0')) else acc

/-- `atoi` on the raw argument token: optional sign, then digits. -/
def atoi (str : List Char) : Int :=
  match str with
  | [] => 0
  | c :: cs =>
    if c = '-' then -(Int.ofNat (atoiDigits cs 0))
    else if c = '+' then Int.ofNat (atoiDigits cs 0)
    else Int.ofNat (atoiDigits (c :: cs) 0)

/-- The clamp of `exec_nice` (main.c lines 560-563). -/
def clampPriority (p : Int) : Int := if p < -19 then -19 else if p > 20 then 20 else p

/-- The scheduling priority `exec_nice` passes to `setpriority`
(main.c lines 548-578): 4 by default; when there is an argument that
passes `is_number` it is `atoi` of that argument clamped to -19..20;
otherwise (the argument is treated as a command) it stays 4. -/
def exec_nice_priority (args : List (List Char)) : Int :=
  match args with
  | _ :: a1 :: _ => if is_number a1 then clampPriority (atoi a1) else 4
  | _ => 4

/-- C10: with a first argument that is an optional leading `-` followed
only by digits, the priority applied is that number clamped to -19..20;
without such an argument (a leading `+` included, or no argument at all)
the priority applied is 4. -/
theorem nice_priority_C10 (a0 a1 : List Char) (rest : List (List Char)) :
    (numericSpec a1 → exec_nice_priority (a0 :: a1 :: rest) = clampPriority (atoi a1)) ∧
    (¬ numericSpec a1 → exec_nice_priority (a0 :: a1 :: rest) = 4) ∧
    (∀ t, a1 = '+' :: t → exec_nice_priority (a0 :: a1 :: rest) = 4) ∧
    (∀ args : List (List Char), args.length ≤ 1 → exec_nice_priority args = 4) ∧
    -19 ≤ clampPriority (atoi a1) ∧ clampPriority (atoi a1) ≤ 20 := by
  refine ⟨?_, ?_, ?_, ?_, ?_⟩
  · intro h
    have hb : is_number a1 = true := (is_number_iff a1).mpr h
    simp [exec_nice_priority, hb]
  · intro h
    have hb : is_number a1 ≠ true := fun hc => h ((is_number_iff a1).mp hc)
    simp only [Bool.not_eq_true] at hb
    simp [exec_nice_priority, hb]
  · intro t ht
    subst ht
    simp [exec_nice_priority, is_number, allDigits]
  · intro args hlen
    match args with
    | [] => rfl
    | [a] => rfl
    | a :: b :: r => simp at hlen
  · unfold clampPriority
    constructor <;> split_ifs <;> omega

/-- Witness for C10: `nice 25` clamps to the applied value, `nice +5`
falls back to priority 4. -/
theorem nice_priority_C10_witness :
    exec_nice_priority [['n', 'i', 'c', 'e'], ['2', '5']] =
      clampPriority (atoi ['2', '5']) ∧
    exec_nice_priority [['n', 'i', 'c', 'e'], ['+', '5']] = 4 := by
  constructor
  · exact (nice_priority_C10 ['n', 'i', 'c', 'e'] ['2', '5'] []).1 (Or.inl (by decide))
  · exact (nice_priority_C10 ['n', 'i', 'c', 'e'] ['+', '5'] []).2.2.1 ['5'] rfl

/-! ## Wait-status decoding and the pipeline executor's wait loop -/

/-- `WEXITSTATUS(status)`: the glibc decoding `(status & 0xff00) >> 8` of
the raw wait-status bit pattern — an 8-bit exit value. -/
def wexitstatus (status : Nat) : Nat := (status &&& 0xff00) >>> 8

/-- The executor's child-failure test `WEXITSTATUS(child_status) == -1`
(main.c line 292), as a C `int` comparison. -/
def abortCheck (status : Nat) : Bool := (Int.ofNat (wexitstatus status)) == -1

/-- C7: the decoded exit value always lies in 0..255, so comparing it
against the sentinel -1 is false for every possible status word; the
branch that reports pipeline failure and signals the remaining processes
(lines 292-295) is unreachable for any child termination. -/
theorem wexitstatus_sentinel_C7 (status : Nat) :
    wexitstatus status ≤ 255 ∧
    Int.ofNat (wexitstatus status) ≠ -1 ∧
    abortCheck status = false := by
  have hle : wexitstatus status ≤ 255 := by
    unfold wexitstatus
    have h1 : status &&& 0xff00 ≤ 0xff00 := Nat.and_le_right
    rw [Nat.shiftRight_eq_div_pow]
    have h2 : (status &&& 0xff00) / 2 ^ 8 ≤ 0xff00 / 2 ^ 8 := Nat.div_le_div_right h1
    exact le_trans h2 (by norm_num)
  have hne : Int.ofNat (wexitstatus status) ≠ -1 := by
    have h0 : (0 : Int) ≤ Int.ofNat (wexitstatus status) := Int.ofNat_nonneg _
    intro h
    rw [h] at h0
    norm_num at h0
  refine ⟨hle, hne, ?_⟩
  unfold abortCheck
  rw [beq_eq_false_iff_ne]
  exact hne

/-- Outcome of a `process_cmd` call that executes in the shell's own
process: either the shell itself terminated via `exit(0)`, or control
returned to the caller after spawning `spawned` children in the shell's
process. -/
inductive DirectOutcome where
  | exited : DirectOutcome
  | returned : (spawned : Nat) → DirectOutcome
deriving DecidableEq, Repr

/-- `process_cmd` (main.c lines 315-400) as it executes in the shell's own
process, for a command whose `next` field is NULL (`nextNull = true`; this
is genuinely the case for the last command of a pipeline).  The `end`
sentinel check (lines 319-320) fires first and exits the shell; a builtin
with NULL `next` runs its handler directly: `exec_logout` exits the shell
(line 539), `exec_nice` applies its priority and, when it has a command
argument (lines 556-571), recursively calls `process_cmd` at line 594 on a
freshly malloc'd `Cmd` whose `next` field is never initialized — that
indeterminate field is modelled by the oracle list `g`, one entry per
recursion step (`headD true`) — and every other handler returns; a builtin
whose `next` is non-NULL, and a non-builtin at any position, fork once and
the parent returns (`forkOk` says whether that single `fork()` succeeds;
at most one fork happens along the whole recursion because the parent
returns right after forking). -/
def process_cmd_in_shell (rc : Bool) : List String → Bool → Bool → List Bool → DirectOutcome
  | [], _, _, _ => DirectOutcome.returned 0
  | [name], nextNull, forkOk, _ =>
    if name = "end" ∧ rc = false then DirectOutcome.exited
    else if is_builtin name ≠ -1 then
      if nextNull then
        if name = "logout" then DirectOutcome.exited
        else DirectOutcome.returned 0
      else DirectOutcome.returned (if forkOk then 1 else 0)
    else DirectOutcome.returned (if forkOk then 1 else 0)
  | name :: a1 :: rest2, nextNull, forkOk, g =>
    if name = "end" ∧ rc = false then DirectOutcome.exited
    else if is_builtin name ≠ -1 then
      if nextNull then
        if name = "logout" then DirectOutcome.exited
        else if name = "nice" then
          if is_number a1.toList then
            match rest2 with
            | [] => DirectOutcome.returned 0
            | _ :: _ => process_cmd_in_shell rc rest2 (g.headD true) forkOk g.tail
          else process_cmd_in_shell rc (a1 :: rest2) (g.headD true) forkOk g.tail
        else DirectOutcome.returned 0
      else DirectOutcome.returned (if forkOk then 1 else 0)
    else DirectOutcome.returned (if forkOk then 1 else 0)

/-- An in-shell `process_cmd` call spawns at most one child in the shell's
process, however deep the `exec_nice` recursion goes. -/
theorem process_cmd_in_shell_spawned_le_one (rc : Bool) (args : List String)
    (nextNull forkOk : Bool) (g : List Bool) (sp : Nat)
    (h : process_cmd_in_shell rc args nextNull forkOk g = DirectOutcome.returned sp) :
    sp ≤ 1 := by
  induction args, nextNull, forkOk, g using process_cmd_in_shell.induct rc generalizing sp <;>
    simp_all [process_cmd_in_shell]
  all_goals (try split_ifs at h)
  all_goals (try simp_all)
  all_goals omega

/-- Parent-side outcome of running the construction loop of `process_pipe`
(lines 246-272) over a list of commands (each given by its argument
vector): either some command terminated the whole shell with `exit(0)`
before the wait loop could run, or the loop ended; `setUp` is the final
value of `no_of_child` and `spawned` the number of successful `fork()`
calls made in the shell's process. -/
inductive LoopOutcome where
  | exitedShell : (setUp : Nat) → (spawned : Nat) → LoopOutcome
  | finished : (setUp : Nat) → (spawned : Nat) → LoopOutcome
deriving DecidableEq, Repr

/-- The construction loop of `process_pipe`.  `rc` is `processing_rc`,
`forks` gives the success of each loop-level `fork()` in order, and `g` is
the oracle for the uninitialized `next` fields of `exec_nice`'s recursive
`process_cmd` invocations (only the last command, which runs in the
shell's process, can reach them).  A command with a successor either is
the `end` sentinel (the shell exits at lines 319-320) or makes
`process_cmd` fork once — for a builtin (lines 346-366) and for an
external command (lines 368-397) alike; the last command runs
`process_cmd` with `c->next == NULL`, modelled by `process_cmd_in_shell`.
Every parent path of `process_cmd` returns 0 (line 399), so the `ret < 0`
break (lines 269-270) can never fire; `pipe()`'s return value (line 261)
is ignored entirely. -/
def pipeLoop (rc : Bool) : List (List String) → List Bool → List Bool → LoopOutcome
  | [], _, _ => LoopOutcome.finished 0 0
  | argv :: cs, forks, g =>
    if cs.isEmpty then
      match process_cmd_in_shell rc argv true (forks.headD true) g with
      | DirectOutcome.exited => LoopOutcome.exitedShell 1 0
      | DirectOutcome.returned sp => LoopOutcome.finished 1 sp
    else
      if argv.headD "" = "end" ∧ rc = false then LoopOutcome.exitedShell 1 0
      else
        let sp0 : Nat := if forks.headD true then 1 else 0
        let ret : Int := 0
        if ret < 0 then LoopOutcome.finished 1 sp0
        else
          match pipeLoop rc cs forks.tail g with
          | LoopOutcome.exitedShell k sp => LoopOutcome.exitedShell (1 + k) (sp0 + sp)
          | LoopOutcome.finished k sp => LoopOutcome.finished (1 + k) (sp0 + sp)

/-- Number of `wait()` calls `process_pipe` performs for the pipeline: the
`while(no_of_child--)` loop (lines 285-296) runs `no_of_child` times —
unless the shell already terminated during construction, in which case it
never runs. -/
def process_pipe_waits (rc : Bool) (cmds : List (List String)) (forks g : List Bool) : Nat :=
  match pipeLoop rc cmds forks g with
  | LoopOutcome.exitedShell _ _ => 0
  | LoopOutcome.finished k _ => k

/-- Number of children the loop spawned in the shell's process for the
pipeline. -/
def process_pipe_spawned (rc : Bool) (cmds : List (List String)) (forks g : List Bool) : Nat :=
  match pipeLoop rc cmds forks g with
  | LoopOutcome.exitedShell _ sp => sp
  | LoopOutcome.finished _ sp => sp

theorem pipeLoop_cons (rc : Bool) (argv : List String) (cs : List (List String))
    (forks g : List Bool) :
    pipeLoop rc (argv :: cs) forks g =
      (if cs.isEmpty then
        match process_cmd_in_shell rc argv true (forks.headD true) g with
        | DirectOutcome.exited => LoopOutcome.exitedShell 1 0
        | DirectOutcome.returned sp => LoopOutcome.finished 1 sp
      else if argv.headD "" = "end" ∧ rc = false then LoopOutcome.exitedShell 1 0
      else
        match pipeLoop rc cs forks.tail g with
        | LoopOutcome.exitedShell k sp =>
            LoopOutcome.exitedShell (1 + k) ((if forks.headD true then 1 else 0) + sp)
        | LoopOutcome.finished k sp =>
            LoopOutcome.finished (1 + k) ((if forks.headD true then 1 else 0) + sp)) := rfl

theorem pipeLoop_finished (rc : Bool) (cmds : List (List String)) (forks g : List Bool)
    (hend : ∀ argv ∈ cmds, ¬ (argv.headD "" = "end" ∧ rc = false))
    (hlast : ∀ last fk, cmds.getLast? = some last →
      process_cmd_in_shell rc last true fk g ≠ DirectOutcome.exited) :
    ∃ sp, pipeLoop rc cmds forks g = LoopOutcome.finished cmds.length sp ∧
      sp ≤ cmds.length := by
  induction cmds generalizing forks with
  | nil => exact ⟨0, rfl, Nat.le_refl 0⟩
  | cons c cs ih =>
    cases cs with
    | nil =>
      have hne := hlast c (forks.headD true) rfl
      rcases hres : process_cmd_in_shell rc c true (forks.headD true) g with _ | sp
      · exact absurd hres hne
      · refine ⟨sp, ?_, ?_⟩
        · show (match process_cmd_in_shell rc c true (forks.headD true) g with
              | DirectOutcome.exited => LoopOutcome.exitedShell 1 0
              | DirectOutcome.returned s => LoopOutcome.finished 1 s) =
            LoopOutcome.finished ([c] : List (List String)).length sp
          rw [hres]
          rfl
        · have := process_cmd_in_shell_spawned_le_one rc c true (forks.headD true) g sp hres
          simpa using this
    | cons d ds =>
      have hc : ¬ (c.headD "" = "end" ∧ rc = false) :=
        hend c (List.mem_cons_self c (d :: ds))
      have hend2 : ∀ x ∈ d :: ds, ¬ (x.headD "" = "end" ∧ rc = false) := by
        intro x hx
        exact hend x (List.mem_cons_of_mem c hx)
      have hlast2 : ∀ last fk, (d :: ds).getLast? = some last →
          process_cmd_in_shell rc last true fk g ≠ DirectOutcome.exited := by
        intro last fk hl
        exact hlast last fk (by rwa [List.getLast?_cons_cons])
      obtain ⟨sp, hsp, hle⟩ := ih forks.tail hend2 hlast2
      refine ⟨(if forks.headD true then 1 else 0) + sp, ?_, ?_⟩
      · rw [pipeLoop_cons]
        have hemp : ((d :: ds) : List (List String)).isEmpty = false := rfl
        rw [hemp]
        simp only [Bool.false_eq_true, if_false, if_neg hc, hsp]
        show LoopOutcome.finished (1 + (d :: ds).length)
            ((if forks.headD true then 1 else 0) + sp) =
          LoopOutcome.finished (c :: d :: ds).length
            ((if forks.headD true then 1 else 0) + sp)
        have hL : 1 + (d :: ds).length = (c :: d :: ds).length := by
          simp only [List.length_cons]
          omega
        rw [hL]
      · simp only [List.length_cons] at hle ⊢
        split <;> omega

/-- Counterexample to C6 as stated: for the 2-command pipeline
`ls | logout`, `exec_logout` runs directly in the shell's process and
calls `exit(0)` before the wait loop, so the executor performs 0 waits,
not 2 — and the one process it spawned for `ls` is never waited on.
Likewise the 1-command pipeline `nice end` (interactively) exits the shell
through `exec_nice`'s recursive `process_cmd` (line 594 reaching lines
319-320) with 0 waits instead of 1. -/
theorem waits_C6_counterexample :
    process_pipe_waits false [["ls"], ["logout"]] [true, true] [] = 0 ∧
    process_pipe_spawned false [["ls"], ["logout"]] [true, true] [] = 1 ∧
    ([["ls"], ["logout"]] : List (List String)).length = 2 ∧
    process_pipe_waits false [["nice", "end"]] [true] [] = 0 ∧
    ([["nice", "end"]] : List (List String)).length = 1 := by decide

/-- C6 (amended to exempt the shell-terminating paths): for every pipeline
of N commands in which no command is the `end` sentinel (outside
startup-script sourcing) and whose last command's in-shell execution by
`process_cmd` returns to the executor instead of terminating the shell
(`exec_logout`, and `exec_nice` recursively reaching `end` or a direct
`logout`, terminate it), the executor performs exactly N waits before
proceeding to the next pipeline — whatever the commands are (a middle
command whose program does not exist included: `execvp` failure happens in
the child, the parent still counts and waits) and even when `fork()`
itself fails — and the loop spawns at most N processes in the shell. -/
theorem waits_C6_amended (rc : Bool) (cmds : List (List String)) (forks g : List Bool)
    (hend : ∀ argv ∈ cmds, ¬ (argv.headD "" = "end" ∧ rc = false))
    (hlast : ∀ last fk, cmds.getLast? = some last →
      process_cmd_in_shell rc last true fk g ≠ DirectOutcome.exited) :
    process_pipe_waits rc cmds forks g = cmds.length ∧
    process_pipe_spawned rc cmds forks g ≤ cmds.length := by
  obtain ⟨sp, hsp, hle⟩ := pipeLoop_finished rc cmds forks g hend hlast
  unfold process_pipe_waits process_pipe_spawned
  rw [hsp]
  exact ⟨rfl, hle⟩

/-- Witness for C6: a 3-command pipeline whose middle program does not
exist still yields exactly 3 waits. -/
theorem waits_C6_witness :
    process_pipe_waits false [["ls"], ["nosuchprogram"], ["wc"]] [true, true, true] [] = 3 ∧
    process_pipe_spawned false [["ls"], ["nosuchprogram"], ["wc"]] [true, true, true] [] ≤ 3 := by
  apply waits_C6_amended
  · decide
  · intro last fk hl
    obtain rfl : last = ["wc"] := by simpa using hl.symm
    cases fk <;> decide

/-- C8: the code does not abort pipeline construction on allocation or
spawn failure.  `pipe()`'s return value is discarded (line 261) and every
parent path of `process_cmd` returns 0 even when `fork()` fails (lines
370, 394-396, 399), so the abort break at lines 269-270 never fires: in a
2-command pipeline whose first `fork()` fails, the second command is still
set up and spawned (`setUp = 2`, one successful spawn). -/
theorem abort_C8_code_behavior :
    pipeLoop false [["foo"], ["bar"]] [false, true] [] = LoopOutcome.finished 2 1 ∧
    process_pipe_spawned false [["foo"], ["bar"]] [false, true] [] = 1 := by decide
